import Mathlib

/-!
Verification development for the macrocosm-os/mainframe validator core.

We shallowly embed the evaluation/validation pipeline
(`src/folding/validators/md/reward.py`), the job update logic and the
credibility pipeline (`src/neurons/validator.py`), the organic-API pipe
drain (`src/neurons/validator.py`, `src/folding/organic/api.py`) and the
reward-reading loop, and prove the spec's testable properties about them.

Energies are modelled as rationals (exact arithmetic); per-miner registry
log dictionaries become explicit records; the catch-all `try`/`except`
blocks become explicit failure flags; randomness (the credibility-gated
audit draw) becomes an explicit per-miner `audited` flag; the external
`evaluator.validate` call becomes per-miner input data (`auditMedian`,
`auditReason`).
-/

namespace Mainframe

/-- Per-miner input to the audit loop of `run_evaluation_validation_pipeline`:
the data the loop reads for one entry of `sorted_dict`.  `inEvaluators`
models `uid in evaluators`; `audited` models the Bernoulli draw
`np.random.rand() < validation_probability`; `auditMedian` / `auditReason`
model the result of `evaluator.validate`; `checkedFinal` models
`checked_energies["final"]`; `throws` models an exception raised while
processing this miner (caught by the per-miner `except`). -/
structure MinerData where
  uid : Nat
  reportedEnergy : ℚ
  inEvaluators : Bool
  audited : Bool
  auditMedian : ℚ
  auditReason : String
  checkedFinal : List ℚ
  throws : Bool
deriving Repr, DecidableEq

/-- The per-miner registry log fields that the event construction and the
downstream consumers read.  `is_duplicate` is `none` when the code never
assigned `logs["is_duplicate"]` for this miner. -/
structure MinerLogs where
  reason : String
  is_valid : Bool
  is_duplicate : Option Bool
  checkedFinal : List ℚ
deriving Repr, DecidableEq

/-- State of the sequential audit loop: `valid_unique_count`,
`processed_uids` (paired with the final registry logs of each processed
miner) and `unique_energies`. -/
structure LoopState where
  validUniqueCount : Nat
  processed : List (Nat × MinerLogs)
  uniqueEnergies : List ℚ
deriving Repr, DecidableEq

def initState : LoopState := ⟨0, [], []⟩

/-- `TOP_K = 5` in `run_evaluation_validation_pipeline`. -/
def TOP_K : Nat := 5

/-- `median_energy`: the audit result if audited, else the reported energy
(the `"skip"` branch trusts the report). -/
def medianEnergyOf (m : MinerData) : ℚ :=
  if m.audited then m.auditMedian else m.reportedEnergy

/-- The reason code recorded before the anomaly check. -/
def reasonOf (m : MinerData) : String :=
  if m.audited then m.auditReason else "skip"

/-- Python's `abs` on rationals. -/
def ratAbs (q : ℚ) : ℚ := if q < 0 then -q else q

/-- `percent_diff = abs((median_energy - reported_energy) / reported_energy) * 100`. -/
def percentDiff (medianEnergy reportedEnergy : ℚ) : ℚ :=
  ratAbs ((medianEnergy - reportedEnergy) / reportedEnergy) * 100

/-- The anomaly condition `percent_diff > c.ANOMALY_THRESHOLD` (the
threshold is a configuration constant, taken as a parameter). -/
def anomalyExceeded (anomalyThreshold : ℚ) (m : MinerData) : Prop :=
  percentDiff (medianEnergyOf m) m.reportedEnergy > anomalyThreshold

instance (aT : ℚ) (m : MinerData) : Decidable (anomalyExceeded aT m) := by
  unfold anomalyExceeded; infer_instance

/-- `any(abs(median_energy - energy) < c.DIFFERENCE_THRESHOLD for energy in unique_energies)`. -/
def isDuplicateOf (uniqueEnergies : List ℚ) (medianEnergy diffThreshold : ℚ) : Bool :=
  uniqueEnergies.any (fun e => ratAbs (medianEnergy - e) < diffThreshold)

/-- One iteration of the audit loop body (lines 141-242 of reward.py).
Returns the new state and whether the loop `break`s (quota reached). -/
def processMiner (anomalyThreshold diffThreshold : ℚ) (st : LoopState)
    (m : MinerData) : LoopState × Bool :=
  if m.throws then (st, false)
  else if !m.inEvaluators then (st, false)
  else if m.reportedEnergy = 0 then (st, false)
  else if medianEnergyOf m ≠ 0 ∧ anomalyExceeded anomalyThreshold m then
    ({ st with processed := st.processed ++
        [(m.uid, ⟨"energy_difference_too_large", false, none, m.checkedFinal⟩)] },
     false)
  else if medianEnergyOf m ≠ 0 then
    if isDuplicateOf st.uniqueEnergies (medianEnergyOf m) diffThreshold then
      ({ st with processed := st.processed ++
          [(m.uid, ⟨reasonOf m, true, some true, m.checkedFinal⟩)] },
       false)
    else
      ({ validUniqueCount := st.validUniqueCount + 1,
         processed := st.processed ++
           [(m.uid, ⟨reasonOf m, true, some false, m.checkedFinal⟩)],
         uniqueEnergies := st.uniqueEnergies ++ [medianEnergyOf m] },
       decide (st.validUniqueCount + 1 = TOP_K))
  else
    ({ st with processed := st.processed ++
        [(m.uid, ⟨reasonOf m, false, none, m.checkedFinal⟩)] },
     false)

/-- The audit loop over the (sorted) miner list, with early `break`. -/
def runLoop (anomalyThreshold diffThreshold : ℚ) :
    LoopState → List MinerData → LoopState
  | st, [] => st
  | st, m :: rest =>
    let r := processMiner anomalyThreshold diffThreshold st m
    if r.2 then r.1 else runLoop anomalyThreshold diffThreshold r.1 rest

/-- The event dictionary built from the processed miners (lines 244-251):
`event[key].append(value)` runs once per processed uid per key present in
that uid's logs, so `is_duplicate` only has entries for miners whose logs
contain that key. -/
structure Event where
  processed_uids : List Nat
  reason : List String
  is_valid : List Bool
  is_duplicate : List Bool
  checked_energies : List (List ℚ)
deriving Repr, DecidableEq

def buildEvent (st : LoopState) : Event :=
  { processed_uids := st.processed.map Prod.fst
    reason := st.processed.map (fun p => p.2.reason)
    is_valid := st.processed.map (fun p => p.2.is_valid)
    is_duplicate := st.processed.filterMap (fun p => p.2.is_duplicate)
    checked_energies := st.processed.map (fun p => p.2.checkedFinal) }

/-- `dict(sorted(all_miner_logs.items(), key=lambda item: item[1]["reported_energy"]))`:
stable ascending sort by reported energy. -/
def sortMiners (ms : List MinerData) : List MinerData :=
  ms.insertionSort (fun a b => a.reportedEnergy ≤ b.reportedEnergy)

/-- `np.median`: middle element of the sorted list, or the mean of the two
middle elements for even length (0 for the empty list, which the code
never hits on the consumed paths). -/
def medianQ (xs : List ℚ) : ℚ :=
  let s := xs.insertionSort (fun a b => a ≤ b)
  let n := s.length
  if n = 0 then 0
  else if n % 2 = 1 then s.getD (n / 2) 0
  else (s.getD (n / 2 - 1) 0 + s.getD (n / 2) 0) / 2

/-- `np.median(checked_energies["final"][-c.ENERGY_WINDOW_SIZE:])`: median of
the last `w` elements. -/
def windowMedian (w : Nat) (xs : List ℚ) : ℚ :=
  medianQ (xs.drop (xs.length - w))

/-- Python dict assignment `d[k] = v`: overwrite if present, append otherwise. -/
def dictSet (d : List (Nat × ℚ)) (k : Nat) (v : ℚ) : List (Nat × ℚ) :=
  if d.any (fun p => p.1 = k) then
    d.map (fun p => if p.1 = k then (k, v) else p)
  else d ++ [(k, v)]

/-- `miner_registry.registry[uid].logs["checked_energies"]["final"]` for a
processed uid. -/
def checkedFinalOf (st : LoopState) (uid : Nat) : List ℚ :=
  ((st.processed.find? (fun p => p.1 = uid)).map (fun p => p.2.checkedFinal)).getD []

/-- The loop state after the audit scan of `run_evaluation_validation_pipeline`. -/
def pipelineState (anomalyThreshold diffThreshold : ℚ)
    (miners : List MinerData) : LoopState :=
  runLoop anomalyThreshold diffThreshold initState (sortMiners miners)

/-- `run_evaluation_validation_pipeline` (reward.py lines 118-266), from the
point where the per-miner evaluations are available: runs the audit loop,
builds the event, and fills the `energies` dict (initialised to 0 for every
uid) from the `zip(processed_uids, is_valid, is_duplicate)` scan — note
that Python's `zip` truncates to the shortest of the three arrays.
Returns `(list(energies.values()), event)`. -/
def run_evaluation_validation_pipeline (anomalyThreshold diffThreshold : ℚ)
    (energyWindowSize : Nat) (uids : List Nat) (miners : List MinerData) :
    List ℚ × Event :=
  let st := pipelineState anomalyThreshold diffThreshold miners
  let ev := buildEvent st
  let energies0 : List (Nat × ℚ) := uids.map (fun u => (u, 0))
  let triples := ev.processed_uids.zip (ev.is_valid.zip ev.is_duplicate)
  let energies := triples.foldl
    (fun d t =>
      if t.2.1 && !t.2.2 then
        dictSet d t.1 (windowMedian energyWindowSize (checkedFinalOf st t.1))
      else d)
    energies0
  (energies.map Prod.snd, ev)

/-! ## Job update logic (`src/neurons/validator.py`) -/

/-- The Job fields read and written by `update_jobs` / `update_job`. -/
structure Job where
  active : Bool
  best_loss : ℚ
  best_hotkey : String
  hotkeys : List String
  computed_rewards : Option (List ℚ)
  event_energies : List ℚ
deriving Repr, DecidableEq

/-- `np.argmin`: index of the first minimum (0 for the empty list, where
the real call would raise — the callers guard against it). -/
def argminIdx : List ℚ → Nat
  | [] => 0
  | x :: xs =>
    let i := argminIdx xs
    if xs.getD i x < x then i + 1 else 0

/-- Modelled from the spec: `Job.update` (the `folding.store` module is not
part of the analysed sources).  Per §3 of the spec, `best_loss` /
`best_hotkey` track the running best (lowest) outcome and "monotonically
improve, never regress", and a termination condition (max lifetime
exceeded) clears `active`. -/
def jobUpdateSpec (j : Job) (loss : ℚ) (hotkey : String)
    (lifetimeExceeded : Bool) : Job :=
  let j1 :=
    if loss < j.best_loss then { j with best_loss := loss, best_hotkey := hotkey }
    else j
  if lifetimeExceeded then { j1 with active := false } else j1

/-- `Validator.update_job` (validator.py lines 404-457), restricted to the
job-state effects: computes the best loss/hotkey, applies `job.update`,
then decides `apply_pipeline` — all-zero energies only run the reward
pipeline when the stored `best_loss` is negative, otherwise
`computed_rewards` becomes an explicit zero vector; any non-zero energy
always runs the pipeline.  The reward model's output (external
`REWARD_REGISTRY` code) is taken as the parameter `rewardOutput`. -/
def update_job (j : Job) (lifetimeExceeded : Bool) (rewardOutput : List ℚ) : Job :=
  let bi := argminIdx j.event_energies
  let bl := j.event_energies.getD bi 0
  let bh := j.hotkeys.getD bi ""
  let j1 := jobUpdateSpec j bl bh lifetimeExceeded
  if j.event_energies.all (fun e => e = 0) then
    if j1.best_loss < 0 then { j1 with computed_rewards := some rewardOutput }
    else { j1 with computed_rewards := some (List.replicate j.hotkeys.length (0 : ℚ)) }
  else { j1 with computed_rewards := some rewardOutput }

/-- The per-job body of `Validator.update_jobs` (validator.py lines
625-647): if the event's energies list is empty the job is deactivated and
persisted as-is (`computed_rewards` untouched); otherwise the event and
hotkeys are merged into the job and `update_job` runs. -/
def update_jobs_step (j : Job) (energies : List ℚ) (hotkeys : List String)
    (lifetimeExceeded : Bool) (rewardOutput : List ℚ) : Job :=
  if energies.length = 0 then { j with active := false }
  else update_job { j with event_energies := energies, hotkeys := hotkeys }
    lifetimeExceeded rewardOutput

/-! ## Credibility pipeline (`Validator.credibility_pipeline`, lines 382-402) -/

/-- The observable side effects of `credibility_pipeline` on the score
vector and the miner registry. -/
inductive CredOp where
  | halveScore (uid : Nat)
  | addCredibility (uid : Nat) (value : ℚ)
  | updateCredibility (uid : Nat)
deriving Repr, DecidableEq

/-- `Validator.credibility_pipeline`: iterate
`zip(job.event["processed_uids"], job.event["reason"])`; `"skip"` is
ignored; `"state-checkpoint"` halves the uid's current score in place;
every non-skip reason records one credibility sample
(`1.0` iff the reason is `"valid"`) followed by a credibility
recomputation. -/
def credLoop : ((Nat → ℚ) × List CredOp) → List (Nat × String) →
    ((Nat → ℚ) × List CredOp)
  | st, [] => st
  | st, (uid, reason) :: rest =>
    if reason = "skip" then credLoop st rest
    else
      let st1 :=
        if reason = "state-checkpoint" then
          (Function.update st.1 uid ((1 / 2 : ℚ) * st.1 uid),
           st.2 ++ [CredOp.halveScore uid])
        else st
      let cred : ℚ := if reason = "valid" then 1 else 0
      credLoop
        (st1.1, st1.2 ++ [CredOp.addCredibility uid cred,
                          CredOp.updateCredibility uid])
        rest

def credibility_pipeline (scores : Nat → ℚ) (processed_uids : List Nat)
    (reasons : List String) : (Nat → ℚ) × List CredOp :=
  credLoop (scores, []) (processed_uids.zip reasons)

/-! ## Organic API pipe drain (`Validator._handle_organic_api_pipe`,
validator.py lines 728-755, and `PipeOrganicValidator.check_queue`,
organic/api.py lines 56-76) -/

/-- An item received over the organic pipe; `addFails` models
`_organic_queue.add(item)` raising for this item. -/
structure OrganicItem where
  id : Nat
  addFails : Bool
deriving Repr, DecidableEq

/-- The `for item in items` loop inside the handler's `try`: items are
added in order until one raises; the exception is caught by the handler's
`except`, which logs and abandons the rest of the batch.  Returns the
queue and whether the batch completed without error. -/
def processBatch : List Nat → List OrganicItem → List Nat × Bool
  | queue, [] => (queue, true)
  | queue, item :: rest =>
    if item.addFails then (queue, false)
    else processBatch (queue ++ [item.id]) rest

/-- One iteration of `_handle_organic_api_pipe` for one received payload:
`none` models `pickle.loads` raising (batch dropped, logged); `some items`
runs the per-item loop. -/
def handleBatch (queue : List Nat) : Option (List OrganicItem) → List Nat × Bool
  | none => (queue, false)
  | some items => processBatch queue items

/-- The `while True` drain loop over successive received batches: every
exception is caught, so each batch is attempted regardless of earlier
failures. -/
def handleBatches : List Nat → List (Option (List OrganicItem)) → List Nat
  | queue, [] => queue
  | queue, b :: rest => handleBatches (handleBatch queue b).1 rest

/-! ## Reward-reading loop (`Validator.read_and_update_rewards`,
validator.py lines 659-689) -/

/-- An inactive job as drained from the inactive queue. -/
structure InactiveJob where
  pdb_id : String
  computed_rewards : Option (List ℚ)
  uids : List Nat
deriving Repr, DecidableEq

/-- Observable actions of the reward-reading loop. -/
inductive RewardAction where
  | warnNone (pdb_id : String)
  | updateScores (rewards : List ℚ) (uids : List Nat)
deriving Repr, DecidableEq

/-- `Validator.read_and_update_rewards`: drain the inactive queue; a job
with `computed_rewards is None` only logs a warning and is skipped
(`continue`), every other job feeds `update_scores`; the loop always
proceeds to the remaining jobs. -/
def read_and_update_rewards : List InactiveJob → List RewardAction
  | [] => []
  | j :: rest =>
    match j.computed_rewards with
    | none => RewardAction.warnNone j.pdb_id :: read_and_update_rewards rest
    | some r => RewardAction.updateScores r j.uids :: read_and_update_rewards rest

/-- A processed entry counts toward the K-quota exactly when it is marked
valid and explicitly non-duplicate. -/
def validNonDup (p : Nat × MinerLogs) : Bool :=
  p.2.is_valid && p.2.is_duplicate == some false

/-- The per-pair score effect of the credibility loop: only the
`"state-checkpoint"` reason touches the score vector, halving that uid's
score in place. -/
def credScoreStep (s : Nat → ℚ) (ur : Nat × String) : Nat → ℚ :=
  if ur.2 = "state-checkpoint" then
    Function.update s ur.1 ((1 / 2 : ℚ) * s ur.1)
  else s

/-- The per-pair registry effect of the credibility loop: nothing for
`"skip"`; otherwise an optional score halving followed by exactly one
credibility sample (`1` iff `"valid"`) and one recomputation. -/
def credOpsOf (ur : Nat × String) : List CredOp :=
  if ur.2 = "skip" then []
  else
    (if ur.2 = "state-checkpoint" then [CredOp.halveScore ur.1] else []) ++
      [CredOp.addCredibility ur.1 (if ur.2 = "valid" then 1 else 0),
       CredOp.updateCredibility ur.1]

/-! ## Helper lemmas -/

lemma processMiner_cases (aT dT : ℚ) (st : LoopState) (m : MinerData) :
    processMiner aT dT st m = (st, false) ∨
    (∃ e, (processMiner aT dT st m).1.processed = st.processed ++ [e] ∧
      validNonDup e = false ∧
      (processMiner aT dT st m).1.validUniqueCount = st.validUniqueCount ∧
      (processMiner aT dT st m).2 = false) ∨
    (∃ e, (processMiner aT dT st m).1.processed = st.processed ++ [e] ∧
      validNonDup e = true ∧
      (processMiner aT dT st m).1.validUniqueCount = st.validUniqueCount + 1 ∧
      (processMiner aT dT st m).2 = decide (st.validUniqueCount + 1 = TOP_K)) := by
  unfold processMiner
  split
  · exact Or.inl rfl
  split
  · exact Or.inl rfl
  split
  · exact Or.inl rfl
  split
  · exact Or.inr (Or.inl ⟨_, rfl, rfl, rfl, rfl⟩)
  split
  · split
    · exact Or.inr (Or.inl ⟨_, rfl, rfl, rfl, rfl⟩)
    · exact Or.inr (Or.inr ⟨_, rfl, rfl, rfl, rfl⟩)
  · exact Or.inr (Or.inl ⟨_, rfl, rfl, rfl, rfl⟩)

lemma runLoop_cons (aT dT : ℚ) (st : LoopState) (m : MinerData)
    (rest : List MinerData) :
    runLoop aT dT st (m :: rest) =
      if (processMiner aT dT st m).2 then (processMiner aT dT st m).1
      else runLoop aT dT (processMiner aT dT st m).1 rest := rfl

lemma runLoop_validNonDup_bound (aT dT : ℚ) (miners : List MinerData) :
    ∀ st : LoopState,
      st.processed.countP validNonDup = st.validUniqueCount →
      st.validUniqueCount < TOP_K →
      (runLoop aT dT st miners).processed.countP validNonDup ≤ TOP_K := by
  induction miners with
  | nil =>
    intro st h1 h2
    simpa [runLoop, h1] using Nat.le_of_lt h2
  | cons m rest ih =>
    intro st h1 h2
    rcases processMiner_cases aT dT st m with hc | ⟨e, hp, hv, hcount, hbrk⟩ |
      ⟨e, hp, hv, hcount, hbrk⟩
    · rw [runLoop_cons, hc]
      exact ih st h1 h2
    · rw [runLoop_cons, hbrk]
      refine ih _ ?_ ?_
      · rw [hp, List.countP_append, h1, hcount]
        simp [hv]
      · rw [hcount]; exact h2
    · by_cases hq : st.validUniqueCount + 1 = TOP_K
      · rw [runLoop_cons, hbrk, if_pos (by simpa using hq)]
        rw [hp, List.countP_append, h1]
        simp [hv, hq]
      · rw [runLoop_cons, hbrk, if_neg (by simpa using hq)]
        refine ih _ ?_ ?_
        · rw [hp, List.countP_append, h1, hcount]
          simp [hv]
        · rw [hcount]
          exact lt_of_le_of_ne h2 hq

lemma getD_all_zero (xs : List ℚ) (h : xs.all (fun e => e = 0) = true) (i : Nat) :
    xs.getD i 0 = 0 := by
  induction xs generalizing i with
  | nil => simp
  | cons x t ih =>
    simp only [List.all_cons, Bool.and_eq_true, decide_eq_true_eq] at h
    cases i with
    | zero => simpa using h.1
    | succ n => simpa using ih (by simpa using h.2) n

lemma update_job_rewards_isSome (j : Job) (le : Bool) (ro : List ℚ) :
    ((update_job j le ro).computed_rewards).isSome = true := by
  unfold update_job
  dsimp only
  split
  · split <;> rfl
  · rfl

lemma credLoop_spec (l : List (Nat × String)) :
    ∀ (s : Nat → ℚ) (ops : List CredOp),
      credLoop (s, ops) l = (l.foldl credScoreStep s, ops ++ l.flatMap credOpsOf) := by
  induction l with
  | nil => intro s ops; simp [credLoop]
  | cons ur rest ih =>
    intro s ops
    obtain ⟨u, r⟩ := ur
    by_cases hskip : r = "skip"
    · simp [credLoop, hskip, credScoreStep, credOpsOf, ih]
    · by_cases hck : r = "state-checkpoint"
      · simp [credLoop, hskip, hck, credScoreStep, credOpsOf, ih]
      · simp [credLoop, hskip, hck, credScoreStep, credOpsOf, ih]

lemma processBatch_spec (items : List OrganicItem) :
    ∀ queue : List Nat,
      processBatch queue items =
        (queue ++ (items.takeWhile (fun i => !i.addFails)).map OrganicItem.id,
         items.all (fun i => !i.addFails)) := by
  induction items with
  | nil => intro q; simp [processBatch]
  | cons i rest ih =>
    intro q
    by_cases hf : i.addFails
    · simp [processBatch, hf]
    · simp [processBatch, hf, ih]

lemma processMiner_not_inEval (aT dT : ℚ) (st : LoopState) (m : MinerData)
    (h : m.inEvaluators = false) : processMiner aT dT st m = (st, false) := by
  unfold processMiner
  by_cases ht : m.throws
  · simp [ht]
  · simp [ht, h]

lemma runLoop_skip_all (aT dT : ℚ) (ms : List MinerData)
    (h : ∀ m ∈ ms, m.inEvaluators = false) :
    ∀ st, runLoop aT dT st ms = st := by
  induction ms with
  | nil => intro st; rfl
  | cons m rest ih =>
    intro st
    rw [runLoop_cons, processMiner_not_inEval aT dT st m (h m (by simp))]
    simpa using ih (fun x hx => h x (by simp [hx])) st

lemma mem_sortMiners {m : MinerData} {ms : List MinerData}
    (h : m ∈ sortMiners ms) : m ∈ ms :=
  (List.perm_insertionSort _ ms).mem_iff.mp h

lemma pipeline_all_timeout (aT dT : ℚ) (w : Nat) (uids : List Nat)
    (miners : List MinerData) (h : ∀ m ∈ miners, m.inEvaluators = false) :
    (run_evaluation_validation_pipeline aT dT w uids miners).1 =
      uids.map (fun _ => (0 : ℚ)) := by
  have hst : pipelineState aT dT miners = initState :=
    runLoop_skip_all aT dT (sortMiners miners)
      (fun m hm => h m (mem_sortMiners hm)) initState
  unfold run_evaluation_validation_pipeline
  rw [hst]
  simp [buildEvent, initState, List.map_map, Function.comp_def]

lemma update_job_active_best (j : Job) (ro : List ℚ)
    (hbl : j.best_loss ≤ 0) (hz : j.event_energies.all (fun e => e = 0) = true) :
    (update_job j false ro).active = j.active ∧
    (update_job j false ro).best_loss = j.best_loss := by
  unfold update_job jobUpdateSpec
  dsimp only
  rw [getD_all_zero _ hz]
  rw [if_neg (not_lt.mpr hbl)]
  simp only [Bool.false_eq_true, if_false, hz, if_true]
  constructor <;> (split <;> rfl)

lemma jobUpdateSpec_best_loss_keep (j : Job) (loss : ℚ) (hk : String)
    (lifetimeExceeded : Bool) (h : ¬ loss < j.best_loss) :
    (jobUpdateSpec j loss hk lifetimeExceeded).best_loss = j.best_loss := by
  unfold jobUpdateSpec
  rw [if_neg h]
  split <;> rfl

lemma jobUpdateSpec_best_loss_new (j : Job) (loss : ℚ) (hk : String)
    (lifetimeExceeded : Bool) (h : loss < j.best_loss) :
    (jobUpdateSpec j loss hk lifetimeExceeded).best_loss = loss := by
  unfold jobUpdateSpec
  rw [if_pos h]
  split <;> rfl

/-! ## Claims -/

/-- C1, counterexample: the claim "every code path that sets `active` to
false or persists an inactive job also sets `computed_rewards`" fails on
the `update_jobs` branch for an empty energies list (validator.py lines
627-636), which deactivates and persists a job whose `computed_rewards`
is still null. -/
theorem c1_counterexample :
    (update_jobs_step ⟨true, 0, "", ["hk"], none, []⟩ [] ["hk"] false []).active
      = false ∧
    (update_jobs_step ⟨true, 0, "", ["hk"], none, []⟩ [] ["hk"] false []).computed_rewards
      = none := by
  decide

/-- C1, amended: every job finalized through `update_job` has non-null
`computed_rewards` (reward-pipeline output or an explicit zero vector),
but the `update_jobs` branch taken when the cycle's energies list is
empty sets `active := false` and persists the job with `computed_rewards`
untouched, so it can remain null. -/
theorem c1_inactive_rewards_amended (j : Job) (energies : List ℚ)
    (hotkeys : List String) (lifetimeExceeded : Bool) (rewardOutput : List ℚ)
    (hne : energies ≠ []) :
    ((update_jobs_step j energies hotkeys lifetimeExceeded rewardOutput).computed_rewards).isSome
      = true ∧
    (update_jobs_step j [] hotkeys lifetimeExceeded rewardOutput).active = false ∧
    (update_jobs_step j [] hotkeys lifetimeExceeded rewardOutput).computed_rewards
      = j.computed_rewards := by
  refine ⟨?_, rfl, rfl⟩
  unfold update_jobs_step
  rw [if_neg (by simp [List.length_eq_zero, hne])]
  exact update_job_rewards_isSome _ _ _

/-- C1, witness for the amended claim at a concrete job. -/
theorem c1_witness :
    ((update_jobs_step ⟨true, 0, "", ["hk"], none, []⟩ [(-5 : ℚ)] ["hk"] false
        [1]).computed_rewards).isSome = true ∧
    (update_jobs_step ⟨true, 0, "", ["hk"], none, []⟩ [] ["hk"] false [1]).active = false ∧
    (update_jobs_step ⟨true, 0, "", ["hk"], none, []⟩ [] ["hk"] false [1]).computed_rewards
      = none :=
  c1_inactive_rewards_amended ⟨true, 0, "", ["hk"], none, []⟩ [(-5 : ℚ)] ["hk"]
    false [1] (by decide)

/-- C2: over any run of the audit loop of
`run_evaluation_validation_pipeline`, the number of workers marked valid
and non-duplicate in the audit trail never exceeds `TOP_K = 5`: the scan
breaks as soon as five unique valid non-duplicate outcomes accumulate, or
the ranked list is exhausted. -/
theorem c2_top_k_bound (anomalyThreshold diffThreshold : ℚ)
    (miners : List MinerData) :
    (pipelineState anomalyThreshold diffThreshold miners).processed.countP validNonDup
      ≤ TOP_K :=
  runLoop_validNonDup_bound anomalyThreshold diffThreshold (sortMiners miners)
    initState rfl (by decide)

/-- C3: in `update_job`, an all-zero energies cycle still runs the reward
pipeline when the job's stored `best_loss` is negative (a previously
earned valid win), otherwise `computed_rewards` becomes an explicit zero
vector of the hotkey list's length; any non-zero energy always runs the
pipeline. -/
theorem c3_zero_energy_reward_policy (j : Job) (lifetimeExceeded : Bool)
    (rewardOutput : List ℚ) (hne : j.event_energies ≠ []) :
    (j.event_energies.all (fun e => e = 0) = true →
      (j.best_loss < 0 →
        (update_job j lifetimeExceeded rewardOutput).computed_rewards
          = some rewardOutput) ∧
      (0 ≤ j.best_loss →
        (update_job j lifetimeExceeded rewardOutput).computed_rewards
          = some (List.replicate j.hotkeys.length (0 : ℚ)))) ∧
    (j.event_energies.all (fun e => e = 0) = false →
      (update_job j lifetimeExceeded rewardOutput).computed_rewards
        = some rewardOutput) := by
  constructor
  · intro hz
    constructor
    · intro hneg
      unfold update_job
      dsimp only
      rw [getD_all_zero _ hz]
      rw [jobUpdateSpec_best_loss_keep j 0 _ lifetimeExceeded
        (not_lt.mpr (le_of_lt hneg))]
      simp only [hz, if_true]
      rw [if_pos hneg]
    · intro hnn
      unfold update_job
      dsimp only
      rw [getD_all_zero _ hz]
      simp only [hz, if_true]
      by_cases hpos : (0 : ℚ) < j.best_loss
      · rw [jobUpdateSpec_best_loss_new j 0 _ lifetimeExceeded hpos]
        rw [if_neg (lt_irrefl 0)]
      · rw [jobUpdateSpec_best_loss_keep j 0 _ lifetimeExceeded hpos]
        rw [if_neg (not_lt.mpr hnn)]
  · intro hz
    unfold update_job
    dsimp only
    rw [if_neg (by simp [hz])]

/-- C3, witness: a job with historical `best_loss = -40` and an all-zero
cycle still gets the pipeline output; a job with non-negative `best_loss`
gets the zero vector; a cycle with a non-zero energy gets the pipeline
output. -/
theorem c3_witness :
    (update_job ⟨true, -40, "h", ["a", "b"], none, [0, 0]⟩ false
        [1 / 2, 1 / 2]).computed_rewards = some [1 / 2, 1 / 2] ∧
    (update_job ⟨true, 3, "h", ["a", "b"], none, [0, 0]⟩ false
        [1 / 2, 1 / 2]).computed_rewards = some (List.replicate 2 (0 : ℚ)) ∧
    (update_job ⟨true, 0, "h", ["a", "b"], none, [0, -7]⟩ false
        [1 / 2, 1 / 2]).computed_rewards = some [1 / 2, 1 / 2] :=
  ⟨((c3_zero_energy_reward_policy ⟨true, -40, "h", ["a", "b"], none, [0, 0]⟩
      false [1 / 2, 1 / 2] (by simp)).1 (by simp)).1 (by norm_num),
   ((c3_zero_energy_reward_policy ⟨true, 3, "h", ["a", "b"], none, [0, 0]⟩
      false [1 / 2, 1 / 2] (by simp)).1 (by simp)).2 (by norm_num),
   (c3_zero_energy_reward_policy ⟨true, 0, "h", ["a", "b"], none, [0, -7]⟩
      false [1 / 2, 1 / 2] (by simp)).2 (by norm_num)⟩

/-- C4, counterexample: the claim "all per-worker arrays stored in the
emitted event have the same length" fails: a scanned worker whose
recomputed median energy is 0 is marked invalid without ever getting an
`is_duplicate` entry (reward.py only assigns `logs["is_duplicate"]`
inside the `if is_valid` branch), so `event["is_duplicate"]` is shorter
than `event["processed_uids"]`. -/
theorem c4_counterexample :
    ((buildEvent (pipelineState 10 1
        [⟨7, -100, true, true, 0, "md-failure", [], false⟩])).processed_uids).length
      = 1 ∧
    ((buildEvent (pipelineState 10 1
        [⟨7, -100, true, true, 0, "md-failure", [], false⟩])).is_duplicate).length
      = 0 := by
  have h : pipelineState 10 1 [⟨7, -100, true, true, 0, "md-failure", [], false⟩]
      = ⟨0, [(7, ⟨"md-failure", false, none, []⟩)], []⟩ := by
    unfold pipelineState sortMiners initState
    norm_num [List.insertionSort, List.orderedInsert, runLoop_cons, runLoop,
      processMiner, medianEnergyOf, reasonOf]
  rw [h]
  exact ⟨rfl, rfl⟩

/-- C4, amended: the event arrays `reason`, `is_valid` and
`checked_energies` are index-aligned with `processed_uids` (one entry per
scanned worker, in scan order), but `is_duplicate` only has entries for
the workers that reached the duplicate check, so its length can be
strictly smaller. -/
theorem c4_event_alignment_amended (anomalyThreshold diffThreshold : ℚ)
    (miners : List MinerData) :
    (buildEvent (pipelineState anomalyThreshold diffThreshold miners)).reason.length
      = (buildEvent (pipelineState anomalyThreshold diffThreshold miners)).processed_uids.length ∧
    (buildEvent (pipelineState anomalyThreshold diffThreshold miners)).is_valid.length
      = (buildEvent (pipelineState anomalyThreshold diffThreshold miners)).processed_uids.length ∧
    (buildEvent (pipelineState anomalyThreshold diffThreshold miners)).checked_energies.length
      = (buildEvent (pipelineState anomalyThreshold diffThreshold miners)).processed_uids.length ∧
    (buildEvent (pipelineState anomalyThreshold diffThreshold miners)).is_duplicate.length
      ≤ (buildEvent (pipelineState anomalyThreshold diffThreshold miners)).processed_uids.length := by
  refine ⟨by simp [buildEvent], by simp [buildEvent], by simp [buildEvent], ?_⟩
  simp only [buildEvent, List.length_map]
  exact List.length_filterMap_le _ _

/-- C5: in the anomaly check, a relative difference exactly equal to the
anomaly threshold percentage leaves the worker valid (the duplicate check
then records its flag), while a difference strictly above the threshold
marks the worker invalid with reason `"energy_difference_too_large"`. -/
theorem c5_anomaly_boundary (anomalyThreshold diffThreshold : ℚ)
    (st : LoopState) (m : MinerData)
    (hthrows : m.throws = false) (heval : m.inEvaluators = true)
    (hrep : m.reportedEnergy ≠ 0) (hvalid : medianEnergyOf m ≠ 0) :
    (percentDiff (medianEnergyOf m) m.reportedEnergy = anomalyThreshold →
      (processMiner anomalyThreshold diffThreshold st m).1.processed =
        st.processed ++ [(m.uid, ⟨reasonOf m, true,
          some (isDuplicateOf st.uniqueEnergies (medianEnergyOf m) diffThreshold),
          m.checkedFinal⟩)]) ∧
    (percentDiff (medianEnergyOf m) m.reportedEnergy > anomalyThreshold →
      (processMiner anomalyThreshold diffThreshold st m).1.processed =
        st.processed ++ [(m.uid, ⟨"energy_difference_too_large", false, none,
          m.checkedFinal⟩)]) := by
  constructor
  · intro heq
    unfold processMiner
    rw [if_neg (by simp [hthrows]), if_neg (by simp [heval]), if_neg hrep,
      if_neg (by simp [anomalyExceeded, heq]), if_pos hvalid]
    by_cases hdup :
      isDuplicateOf st.uniqueEnergies (medianEnergyOf m) diffThreshold
    · rw [if_pos hdup, hdup]
    · rw [if_neg hdup]
      rw [Bool.not_eq_true] at hdup
      rw [hdup]
  · intro hgt
    unfold processMiner
    rw [if_neg (by simp [hthrows]), if_neg (by simp [heval]), if_neg hrep,
      if_pos ⟨hvalid, hgt⟩]

/-- C5, witness: with threshold 10, reported −100 and recomputed −110
(exactly 10 percent) the worker stays valid; recomputed −115 (15 percent)
is marked invalid with the too-large-difference reason. -/
theorem c5_witness :
    (processMiner 10 1 initState
        ⟨7, -100, true, true, -110, "valid", [-110], false⟩).1.processed
      = [(7, ⟨"valid", true, some false, [-110]⟩)] ∧
    (processMiner 10 1 initState
        ⟨7, -100, true, true, -115, "valid", [-115], false⟩).1.processed
      = [(7, ⟨"energy_difference_too_large", false, none, [-115]⟩)] := by
  constructor
  · have h := (c5_anomaly_boundary 10 1 initState
      ⟨7, -100, true, true, -110, "valid", [-110], false⟩ rfl rfl (by norm_num)
      (by norm_num [medianEnergyOf])).1
      (by norm_num [percentDiff, medianEnergyOf, ratAbs])
    rw [h]
    simp [initState, reasonOf, isDuplicateOf]
  · have h := (c5_anomaly_boundary 10 1 initState
      ⟨7, -100, true, true, -115, "valid", [-115], false⟩ rfl rfl (by norm_num)
      (by norm_num [medianEnergyOf])).2
      (by norm_num [percentDiff, medianEnergyOf, ratAbs])
    rw [h]
    simp [initState]

/-- C6: in the duplicate check, a new accepted value at distance exactly
the duplicate threshold (or more) from every accepted unique value is not
a duplicate — it joins the unique set and increments the K-quota counter —
while a value strictly closer than the threshold to some accepted value is
marked duplicate, joins neither the unique set nor the counter. -/
theorem c6_duplicate_boundary (anomalyThreshold diffThreshold : ℚ)
    (st : LoopState) (m : MinerData)
    (hthrows : m.throws = false) (heval : m.inEvaluators = true)
    (hrep : m.reportedEnergy ≠ 0) (hvalid : medianEnergyOf m ≠ 0)
    (hanom : ¬ anomalyExceeded anomalyThreshold m) :
    ((∀ e ∈ st.uniqueEnergies, diffThreshold ≤ ratAbs (medianEnergyOf m - e)) →
      (processMiner anomalyThreshold diffThreshold st m).1 =
        { validUniqueCount := st.validUniqueCount + 1,
          processed := st.processed ++
            [(m.uid, ⟨reasonOf m, true, some false, m.checkedFinal⟩)],
          uniqueEnergies := st.uniqueEnergies ++ [medianEnergyOf m] }) ∧
    ((∃ e ∈ st.uniqueEnergies, ratAbs (medianEnergyOf m - e) < diffThreshold) →
      (processMiner anomalyThreshold diffThreshold st m).1 =
        { st with processed := st.processed ++
            [(m.uid, ⟨reasonOf m, true, some true, m.checkedFinal⟩)] }) := by
  constructor
  · intro hfar
    have hdup : isDuplicateOf st.uniqueEnergies (medianEnergyOf m) diffThreshold
        = false := by
      simp only [isDuplicateOf, List.any_eq_false, decide_eq_true_eq]
      intro e he
      exact not_lt.mpr (hfar e he)
    unfold processMiner
    rw [if_neg (by simp [hthrows]), if_neg (by simp [heval]), if_neg hrep,
      if_neg (fun hc => hanom hc.2), if_pos hvalid, if_neg (by simp [hdup])]
  · intro hnear
    have hdup : isDuplicateOf st.uniqueEnergies (medianEnergyOf m) diffThreshold
        = true := by
      obtain ⟨e, he, hlt⟩ := hnear
      simp only [isDuplicateOf, List.any_eq_true, decide_eq_true_eq]
      exact ⟨e, he, hlt⟩
    unfold processMiner
    rw [if_neg (by simp [hthrows]), if_neg (by simp [heval]), if_neg hrep,
      if_neg (fun hc => hanom hc.2), if_pos hvalid, if_pos hdup]

/-- C6, witness: with duplicate threshold 1 and accepted unique value −50,
a new accepted value −49 (distance exactly 1) is not a duplicate and joins
the unique set; −99/2 (distance 1/2) is flagged duplicate and the state is
otherwise unchanged. -/
theorem c6_witness :
    (processMiner 10 1 ⟨0, [], [-50]⟩
        ⟨3, -49, true, true, -49, "valid", [-49], false⟩).1
      = ⟨1, [(3, ⟨"valid", true, some false, [-49]⟩)], [-50, -49]⟩ ∧
    (processMiner 10 1 ⟨0, [], [-50]⟩
        ⟨4, -49, true, true, -99 / 2, "valid", [-99 / 2], false⟩).1
      = ⟨0, [(4, ⟨"valid", true, some true, [-99 / 2]⟩)], [-50]⟩ := by
  constructor
  · have h := (c6_duplicate_boundary 10 1 ⟨0, [], [-50]⟩
      ⟨3, -49, true, true, -49, "valid", [-49], false⟩ rfl rfl (by norm_num)
      (by norm_num [medianEnergyOf])
      (by norm_num [anomalyExceeded, percentDiff, medianEnergyOf, ratAbs])).1
      (by
        intro e he
        simp only [List.mem_singleton] at he
        subst he
        norm_num [medianEnergyOf, ratAbs])
    rw [h]
    simp [reasonOf, medianEnergyOf]
  · have h := (c6_duplicate_boundary 10 1 ⟨0, [], [-50]⟩
      ⟨4, -49, true, true, -99 / 2, "valid", [-99 / 2], false⟩ rfl rfl
      (by norm_num) (by norm_num [medianEnergyOf])
      (by norm_num [anomalyExceeded, percentDiff, medianEnergyOf, ratAbs])).2
      ⟨-50, by simp, by norm_num [medianEnergyOf, ratAbs]⟩
    rw [h]
    simp [reasonOf]

/-- C7: `credibility_pipeline` iterates `zip(processed_uids, reason)`; a
`"skip"` reason contributes nothing; every other reason contributes exactly
one credibility sample whose value is 1 iff the reason is `"valid"`,
followed by one credibility recomputation; the `"state-checkpoint"` reason
additionally halves that worker's current score in place, immediately and
independently of the sample path. -/
theorem c7_credibility_effects (scores : Nat → ℚ) (processed_uids : List Nat)
    (reasons : List String) :
    credibility_pipeline scores processed_uids reasons =
      ((processed_uids.zip reasons).foldl credScoreStep scores,
       (processed_uids.zip reasons).flatMap credOpsOf) := by
  unfold credibility_pipeline
  simpa using credLoop_spec (processed_uids.zip reasons) scores []

/-- C8, counterexample: with one queried uid whose worker times out (so it
never enters `evaluators`), the pipeline's energies list is `[0]` — an
all-zero vector with one entry per queried uid — not the empty collection
the claim expects, so the empty-energies deactivation in `update_jobs`
does not fire on this input. -/
theorem c8_counterexample :
    (run_evaluation_validation_pipeline 10 1 10 [0]
        [⟨0, 0, false, false, 0, "", [], false⟩]).1 = [0] ∧
    (run_evaluation_validation_pipeline 10 1 10 [0]
        [⟨0, 0, false, false, 0, "", [], false⟩]).1 ≠ [] := by
  have h : (run_evaluation_validation_pipeline 10 1 10 [0]
      [⟨0, 0, false, false, 0, "", [], false⟩]).1 = [0] := by
    have hall := pipeline_all_timeout 10 1 10 [0]
      [⟨0, 0, false, false, 0, "", [], false⟩]
      (by intro m hm; simp only [List.mem_singleton] at hm; subst hm; rfl)
    simpa using hall
  exact ⟨h, by rw [h]; simp⟩

/-- C8, amended: when every worker times out, the event's energies list is
an all-zero vector with one entry per queried uid (not empty); the
empty-energies deactivation in `update_jobs` therefore does not fire, and
— with the spec-modelled `Job.update`, absent a max-lifetime termination —
the job keeps its `active` flag and, provided the stored best loss is at
most 0, its `best_loss` is unchanged by the cycle. -/
theorem c8_all_timeout_amended (anomalyThreshold diffThreshold : ℚ)
    (energyWindowSize : Nat) (uids : List Nat) (miners : List MinerData)
    (hto : ∀ m ∈ miners, m.inEvaluators = false)
    (j : Job) (hotkeys : List String) (rewardOutput : List ℚ)
    (hbl : j.best_loss ≤ 0) :
    (run_evaluation_validation_pipeline anomalyThreshold diffThreshold
        energyWindowSize uids miners).1 = uids.map (fun _ => (0 : ℚ)) ∧
    (uids ≠ [] →
      (update_jobs_step j
          ((run_evaluation_validation_pipeline anomalyThreshold diffThreshold
            energyWindowSize uids miners).1) hotkeys false rewardOutput).active
        = j.active ∧
      (update_jobs_step j
          ((run_evaluation_validation_pipeline anomalyThreshold diffThreshold
            energyWindowSize uids miners).1) hotkeys false rewardOutput).best_loss
        = j.best_loss) := by
  have he := pipeline_all_timeout anomalyThreshold diffThreshold
    energyWindowSize uids miners hto
  refine ⟨he, fun hu => ?_⟩
  rw [he]
  unfold update_jobs_step
  rw [if_neg (by simp [List.length_eq_zero, hu])]
  have hz : ((uids.map (fun _ => (0 : ℚ))).all (fun e => e = 0)) = true := by
    simp
  exact update_job_active_best
    { j with event_energies := uids.map (fun _ => (0 : ℚ)), hotkeys := hotkeys }
    rewardOutput hbl hz

/-- C8, witness for the amended claim: one queried uid, one timed-out
worker, a job with stored best loss −40: the energies come back `[0]`, the
job stays active and `best_loss` stays −40. -/
theorem c8_witness :
    (run_evaluation_validation_pipeline 10 1 10 [0]
        [⟨0, 0, false, false, 0, "", [], false⟩]).1 = [(0 : ℚ)] ∧
    (update_jobs_step ⟨true, -40, "h", ["hk"], none, []⟩
        ((run_evaluation_validation_pipeline 10 1 10 [0]
          [⟨0, 0, false, false, 0, "", [], false⟩]).1) ["hk"] false []).active
      = true ∧
    (update_jobs_step ⟨true, -40, "h", ["hk"], none, []⟩
        ((run_evaluation_validation_pipeline 10 1 10 [0]
          [⟨0, 0, false, false, 0, "", [], false⟩]).1) ["hk"] false []).best_loss
      = -40 := by
  have h := c8_all_timeout_amended 10 1 10 [0]
    [⟨0, 0, false, false, 0, "", [], false⟩]
    (by intro m hm; simp only [List.mem_singleton] at hm; subst hm; rfl)
    ⟨true, -40, "h", ["hk"], none, []⟩ ["hk"] [] (by norm_num)
  exact ⟨h.1, (h.2 (by simp)).1, (h.2 (by simp)).2⟩

/-- C9, counterexample: in a batch whose first item fails to enqueue, the
second (processable) item is never added — the handler's `except` wraps
the whole batch, so an error on one item aborts the remaining items of
that batch, refuting the claim that they are still processed; the same
second item alone is added fine. -/
theorem c9_counterexample :
    (handleBatch [] (some [⟨1, true⟩, ⟨2, false⟩])).1 = [] ∧
    (handleBatch [] (some [⟨2, false⟩])).1 = [2] :=
  ⟨rfl, rfl⟩

/-- C9, amended: deserialization errors and per-item errors are caught and
logged and the drain loop continues with the following batches; but within
one batch, only the items before the first failing item are enqueued — the
failing item and everything after it in that batch are dropped. -/
theorem c9_batch_error_amended (queue : List Nat)
    (batches : List (Option (List OrganicItem))) :
    handleBatches queue batches =
      queue ++ batches.flatMap (fun b =>
        match b with
        | none => []
        | some items => (items.takeWhile (fun i => !i.addFails)).map OrganicItem.id) := by
  induction batches generalizing queue with
  | nil => simp [handleBatches]
  | cons b rest ih =>
    cases b with
    | none => simp [handleBatches, handleBatch, ih]
    | some items =>
      simp [handleBatches, handleBatch, processBatch_spec, ih, List.append_assoc]

/-- C10: the reward-reading loop turns each drained inactive job into
exactly one action, in queue order: a job whose `computed_rewards` is null
yields only a warning — no score update and no exception — and every other
job yields one score update; a null-reward job therefore never blocks the
jobs after it in the queue. -/
theorem c10_null_rewards_skipped (jobs : List InactiveJob) :
    read_and_update_rewards jobs =
      jobs.map (fun j =>
        match j.computed_rewards with
        | none => RewardAction.warnNone j.pdb_id
        | some r => RewardAction.updateScores r j.uids) := by
  induction jobs with
  | nil => rfl
  | cons j rest ih =>
    cases hj : j.computed_rewards with
    | none => simp [read_and_update_rewards, hj, ih]
    | some r => simp [read_and_update_rewards, hj, ih]

end Mainframe
